import Mathlib

/-!
Verification development for the sajuos repository.

Part A embeds the two total helper functions of `frontend/types/index.ts`
(`getHourFromJiIndex`, `getAccuracyBadge`) directly from their TypeScript
source.

Part B embeds the rule-card retrieval and ranking engine (the "Match" stage:
CorpusIndex, TriggerMatcher, Scorer, SectionSelector, MatchEngine).  The
Python module implementing it (`app/services/match_module.py`) is not part of
the source tree; only its configuration table `SECTION_CONFIG`, its
`final_score` formula and its surrounding documentation are.  The engine is
therefore modelled from the specification, with every such definition marked
`Modelled from the spec:` in its doc comment.  Floating-point scores are
modelled as rationals (every IEEE value is rational); the log-based IDF
formula itself is modelled over the reals.
-/

set_option maxHeartbeats 1000000

namespace SajuFrontend

/-- Quality metadata of a calculation (interface QualityInfo in
`frontend/types/index.ts`). -/
structure QualityInfo where
  has_birth_time : Bool
  solar_term_boundary : Bool
  boundary_reason : Option String
  timezone : String
  calculation_method : String
  deriving DecidableEq, Repr

/-- The `hourMap` record literal inside `getHourFromJiIndex`
(`frontend/types/index.ts`): ji-branch index to representative hour. -/
def hourMap : List (Int × Int) :=
  [(0, 0), (1, 1), (2, 3), (3, 5), (4, 7), (5, 9), (6, 11),
   (7, 13), (8, 15), (9, 17), (10, 19), (11, 21)]

/-- `getHourFromJiIndex` from `frontend/types/index.ts`: record lookup with
the `?? 12` default. -/
def getHourFromJiIndex (jiIndex : Int) : Int :=
  match hourMap.find? (fun p => p.1 == jiIndex) with
  | some p => p.2
  | none => 12

/-- The `AccuracyBadge` union type of `frontend/types/index.ts`. -/
inductive AccuracyBadge where
  | high
  | boundary
  | no_time
  deriving DecidableEq, Repr

/-- `getAccuracyBadge` from `frontend/types/index.ts`; the `Option` input
covers the `quality?: QualityInfo | null` parameter (null or undefined is
`none`). -/
def getAccuracyBadge : Option QualityInfo → AccuracyBadge
  | none => .no_time
  | some q =>
    if q.solar_term_boundary then .boundary
    else if !q.has_birth_time then .no_time
    else .high

end SajuFrontend

namespace SajuEngine

/-- The five report sections, in the fixed pipeline order
ELEM → TEN → STRU → SURV → APPL (`SECTION_CONFIG`, src/unnamed/part_000). -/
inductive ReportSection where
  | ELEM
  | TEN
  | STRU
  | SURV
  | APPL
  deriving DecidableEq, Repr

/-- Per-section top-N quota from `SECTION_CONFIG` (src/unnamed/part_000):
8 cards for ELEM/TEN/STRU, 5 for SURV/APPL. -/
def topN : ReportSection → Nat
  | .ELEM => 8
  | .TEN => 8
  | .STRU => 8
  | .SURV => 5
  | .APPL => 5

/-- The fixed section pipeline order (`SECTION_CONFIG` priorities 1..5). -/
def sectionOrder : List ReportSection :=
  [.ELEM, .TEN, .STRU, .SURV, .APPL]

/-- Modelled from the spec: a RuleCard record (spec section 3) as handed to
the core by the corpus loader.  The opaque text payloads (interpretation,
mechanism, action) are omitted: they are not read by any scored operation. -/
structure RuleCard where
  id : String
  sec : ReportSection
  tags : List String
  trigger : List String
  priority : ℚ
  deriving DecidableEq, Repr

/-- Modelled from the spec: the FeatureSet produced by Derive (spec
section 3), restricted to the fields the core reads. -/
structure FeatureSet where
  dayMasterElement : String
  strongElements : List String
  weakElements : List String
  dominantTenGod : String
  structClass : String
  targetYear : Nat
  isFavorableYear : Bool
  goalTokens : List String
  deriving DecidableEq, Repr

/-- Modelled from the spec: CorpusIndex holds the loaded card collection in
corpus load order (spec section 4.1); frequency queries are answered by the
functions below. -/
structure CorpusIndex where
  cards : List RuleCard
  deriving DecidableEq, Repr

/-- Total card count N of the corpus. -/
def CorpusIndex.size (idx : CorpusIndex) : Nat :=
  idx.cards.length

/-- Modelled from the spec: `Build` fails on an empty corpus (a zero-size
corpus is a configuration error), otherwise returns the index. -/
def Build (cards : List RuleCard) : Except String CorpusIndex :=
  if cards.isEmpty then Except.error "empty corpus" else Except.ok ⟨cards⟩

/-- Modelled from the spec: `DocumentFrequency(token)` is the number of cards
whose tags contain the token; 0 for unknown tokens. -/
def DocumentFrequency (idx : CorpusIndex) (t : String) : Nat :=
  (idx.cards.filter (fun c => decide (t ∈ c.tags))).length

/-- Modelled from the spec: `InverseDocumentFrequency(token)` is
`log((N + 1) / (df + 1)) + 1` (spec section 4.1), stated over the reals. -/
noncomputable def InverseDocumentFrequency (idx : CorpusIndex) (t : String) : ℝ :=
  Real.log (((idx.size : ℝ) + 1) / ((DocumentFrequency idx t : ℝ) + 1)) + 1

/-- Modelled from the spec: `CardsBySection(section)` returns all cards of
the section, in stable corpus load order. -/
def CardsBySection (idx : CorpusIndex) (s : ReportSection) : List RuleCard :=
  idx.cards.filter (fun c => decide (c.sec = s))

/-- Modelled from the spec: the pure feature-set-to-token-set mapping (spec
section 4.2): union of day-master element, strong/weak element lists,
dominant relational category, structural classification and goal tokens. -/
def featureTokens (f : FeatureSet) : List String :=
  [f.dayMasterElement] ++ f.strongElements ++ f.weakElements ++
    [f.dominantTenGod, f.structClass] ++ f.goalTokens

/-- Modelled from the spec: `Fires(card, tokenSet)` (spec section 4.2): true
iff the trigger intersects the token set; the fired tokens are exactly that
intersection, in the trigger order of the card. -/
def Fires (card : RuleCard) (tokens : List String) : Bool × List String :=
  let fired := card.trigger.filter (fun t => decide (t ∈ tokens))
  (!fired.isEmpty, fired)

/-- Modelled from the spec: the explicit scoring configuration (spec
sections 4.3 and 9): the four weights, the two fixed bonus amounts, and the
per-token IDF table.  The IDF values of the running system are floats and
every float is a rational, so the table is a function into the rationals. -/
structure ScoreConfig where
  baseWeight : ℚ
  tagWeight : ℚ
  yearWeight : ℚ
  goalWeight : ℚ
  yearBonus : ℚ
  goalBonus : ℚ
  idf : String → ℚ

/-- The default configuration: weights 1.0 / 2.0 / 0.5 / 0.3 from the
`final_score` snippet (src/unnamed/part_000, lines 349-354), bonuses 1.0 and
0.5 (spec section 4.3). -/
def defaultConfig (idf : String → ℚ) : ScoreConfig :=
  ⟨1, 2, 1 / 2, 3 / 10, 1, 1 / 2, idf⟩

/-- The retained score breakdown of one entry (`score_details` in the raw
JSON, src/unnamed/part_000). -/
structure ScoreDetail where
  baseScore : ℚ
  tagMatchScore : ℚ
  yearBoost : ℚ
  goalBoost : ℚ
  finalScore : ℚ
  deriving DecidableEq, Repr

/-- Modelled from the spec: the Scorer (spec section 4.3).
`base_score` is the card priority; `tag_match_score` sums IDF over the fired
tokens; `year_boost` is the fixed bonus when the tags or trigger reference
the target year, or the favorable-year flag is set and the card carries the
timing tag; `goal_boost` is the fixed bonus when a goal token intersects the
tags; `final_score` combines the four terms with the configured weights. -/
def Score (cfg : ScoreConfig) (f : FeatureSet) (card : RuleCard)
    (fired : List String) : ScoreDetail :=
  let base : ℚ := card.priority
  let tagm : ℚ := (fired.map cfg.idf).sum
  let yb : ℚ :=
    if (toString f.targetYear ∈ card.tags ∨ toString f.targetYear ∈ card.trigger)
        ∨ (f.isFavorableYear = true ∧ "timing" ∈ card.tags)
    then cfg.yearBonus else 0
  let gb : ℚ :=
    if f.goalTokens.any (fun g => decide (g ∈ card.tags)) = true
    then cfg.goalBonus else 0
  ⟨base, tagm, yb, gb,
    cfg.baseWeight * base + cfg.tagWeight * tagm +
      cfg.yearWeight * yb + cfg.goalWeight * gb⟩

/-- One MatchResult entry: card id, corpus load index, final score, fired
tokens and the retained breakdown (spec section 3, MatchResult). -/
structure MatchEntry where
  cardId : String
  loadIdx : Nat
  finalScore : ℚ
  firedTokens : List String
  detail : ScoreDetail
  deriving DecidableEq, Repr

/-- Ranking order of entries: descending final score, ties broken by
ascending corpus load order (spec section 4.4, steps 4-5). -/
def rankLe (a b : MatchEntry) : Prop :=
  b.finalScore < a.finalScore ∨
    (a.finalScore = b.finalScore ∧ a.loadIdx ≤ b.loadIdx)

/-- Strict ranking order: descending score, strictly ascending load order on
ties. -/
def rankLt (a b : MatchEntry) : Prop :=
  b.finalScore < a.finalScore ∨
    (a.finalScore = b.finalScore ∧ a.loadIdx < b.loadIdx)

instance : DecidableRel rankLe := fun a b =>
  inferInstanceAs (Decidable (b.finalScore < a.finalScore ∨
    (a.finalScore = b.finalScore ∧ a.loadIdx ≤ b.loadIdx)))

instance : DecidableRel rankLt := fun a b =>
  inferInstanceAs (Decidable (b.finalScore < a.finalScore ∨
    (a.finalScore = b.finalScore ∧ a.loadIdx < b.loadIdx)))

instance : IsTotal MatchEntry rankLe :=
  ⟨fun a b => by
    rcases lt_trichotomy a.finalScore b.finalScore with h | h | h
    · exact Or.inr (Or.inl h)
    · rcases Nat.le_total a.loadIdx b.loadIdx with hi | hi
      · exact Or.inl (Or.inr ⟨h, hi⟩)
      · exact Or.inr (Or.inr ⟨h.symm, hi⟩)
    · exact Or.inl (Or.inl h)⟩

instance : IsTrans MatchEntry rankLe :=
  ⟨fun a b c hab hbc => by
    rcases hab with h1 | ⟨h1, i1⟩
    · rcases hbc with h2 | ⟨h2, i2⟩
      · exact Or.inl (h2.trans h1)
      · exact Or.inl (h2 ▸ h1)
    · rcases hbc with h2 | ⟨h2, i2⟩
      · exact Or.inl (h1 ▸ h2)
      · exact Or.inr ⟨h1.trans h2, i1.trans i2⟩⟩

/-- Pair each element of a list with its position, starting at `n`; used to
record the corpus load order of every card. -/
def withIdx (n : Nat) : List RuleCard → List (Nat × RuleCard)
  | [] => []
  | c :: l => (n, c) :: withIdx (n + 1) l

/-- The entry built for one firing candidate. -/
def mkEntry (cfg : ScoreConfig) (f : FeatureSet) (p : Nat × RuleCard) :
    MatchEntry :=
  let fired := (Fires p.2 (featureTokens f)).2
  let d := Score cfg f p.2 fired
  ⟨p.2.id, p.1, d.finalScore, fired, d⟩

/-- Modelled from the spec: SectionSelector steps 1-2 (spec section 4.4):
the candidate pool of the section, tagged with corpus load indices. -/
def candidatesWithIdx (idx : CorpusIndex) (s : ReportSection) :
    List (Nat × RuleCard) :=
  (withIdx 0 idx.cards).filter (fun p => decide (p.2.sec = s))

/-- Modelled from the spec: SectionSelector steps 2-3 (spec section 4.4):
discard non-firing candidates and score the firing ones. -/
def firingEntries (cfg : ScoreConfig) (f : FeatureSet) (idx : CorpusIndex)
    (s : ReportSection) : List MatchEntry :=
  (candidatesWithIdx idx s).filterMap (fun p =>
    if (Fires p.2 (featureTokens f)).2.isEmpty then none
    else some (mkEntry cfg f p))

/-- Modelled from the spec: SectionSelector (spec section 4.4): filter to
firing candidates, sort descending by score with the load-order tie-break,
truncate to the section quota. -/
def SectionSelector (cfg : ScoreConfig) (f : FeatureSet) (idx : CorpusIndex)
    (s : ReportSection) : List MatchEntry :=
  (List.insertionSort rankLe (firingEntries cfg f idx s)).take (topN s)

/-- The flat per-request trace (spec section 3, TraceRecord). -/
structure TraceRecord where
  matchedRuleIds : List String
  matchScores : List (String × ℚ)
  firedTriggers : List (String × List String)
  deriving DecidableEq, Repr

/-- Merge the per-section results into one flat TraceRecord. -/
def buildTrace (rs : List (ReportSection × List MatchEntry)) : TraceRecord :=
  ⟨(rs.map (fun p => p.2.map (fun e => e.cardId))).flatten,
   (rs.map (fun p => p.2.map (fun e => (e.cardId, e.finalScore)))).flatten,
   (rs.map (fun p => p.2.map (fun e => (e.cardId, e.firedTokens)))).flatten⟩

/-- The assembled output of one MatchEngine run. -/
structure MatchOutput where
  results : List (ReportSection × List MatchEntry)
  trace : TraceRecord
  deriving DecidableEq, Repr

/-- Modelled from the spec: MatchEngine with the request state passed
explicitly.  The FeatureSet is the per-request state the imperative code
threads through every stage (spec: read-only, never mutated); the run
returns the state next to the Except-wrapped output.  `none` models a
CorpusIndex that was never built; an empty corpus is the other fatal
precondition violation (spec section 4.5). -/
def MatchAllSt (cfg : ScoreConfig) (o : Option CorpusIndex)
    (f : FeatureSet) : FeatureSet × Except String MatchOutput :=
  match o with
  | none => (f, Except.error "CorpusIndex was never built")
  | some idx =>
    if idx.cards.isEmpty then (f, Except.error "CorpusIndex is empty")
    else
      let step := fun (st : FeatureSet × List (ReportSection × List MatchEntry))
          (s : ReportSection) =>
        (st.1, st.2 ++ [(s, SectionSelector cfg st.1 idx s)])
      let run := sectionOrder.foldl step (f, [])
      (run.1, Except.ok ⟨run.2, buildTrace run.2⟩)

/-- `MatchAll(featureSet)`: the output component of the run. -/
def MatchAll (cfg : ScoreConfig) (o : Option CorpusIndex)
    (f : FeatureSet) : Except String MatchOutput :=
  (MatchAllSt cfg o f).2

/-- Look up the MatchResult of one section in an engine outcome. -/
def resultsOf (r : Except String MatchOutput) (s : ReportSection) :
    Option (List MatchEntry) :=
  match r with
  | Except.ok out => (out.results.find? (fun p => decide (p.1 = s))).map (fun p => p.2)
  | Except.error _ => none

/-- Whether an engine outcome is a success. -/
def isOkB (r : Except String MatchOutput) : Bool :=
  match r with
  | Except.ok _ => true
  | Except.error _ => false

theorem withIdx_map_snd (n : Nat) (l : List RuleCard) :
    (withIdx n l).map Prod.snd = l := by
  induction l generalizing n with
  | nil => rfl
  | cons c l ih => simp [withIdx, ih]

theorem mem_withIdx {p : Nat × RuleCard} (n : Nat) (l : List RuleCard) :
    p ∈ withIdx n l ↔ ∃ i, l[i]? = some p.2 ∧ p.1 = n + i := by
  induction l generalizing n with
  | nil => simp [withIdx]
  | cons c l ih =>
    simp only [withIdx, List.mem_cons, ih]
    constructor
    · rintro (rfl | ⟨i, hg, hp⟩)
      · exact ⟨0, by simp, rfl⟩
      · exact ⟨i + 1, by simpa using hg, by omega⟩
    · rintro ⟨i, hg, hp⟩
      cases i with
      | zero =>
        left
        obtain ⟨p1, p2⟩ := p
        simp only [List.getElem?_cons_zero, Option.some.injEq] at hg
        simp only at hp
        simp [hg, hp]
      | succ j =>
        right
        exact ⟨j, by simpa using hg, by omega⟩

theorem withIdx_fst_ge (n : Nat) (l : List RuleCard) :
    ∀ p ∈ withIdx n l, n ≤ p.1 := by
  induction l generalizing n with
  | nil => simp [withIdx]
  | cons c l ih =>
    intro p hp
    rcases List.mem_cons.mp hp with rfl | hp
    · exact Nat.le_refl n
    · exact Nat.le_trans (Nat.le_succ n) (ih (n + 1) p hp)

theorem withIdx_pairwise (n : Nat) (l : List RuleCard) :
    List.Pairwise (fun p q => p.1 < q.1) (withIdx n l) := by
  induction l generalizing n with
  | nil => exact List.Pairwise.nil
  | cons c l ih =>
    refine List.Pairwise.cons ?_ (ih (n + 1))
    intro q hq
    exact Nat.lt_of_lt_of_le (Nat.lt_succ_self n) (withIdx_fst_ge (n + 1) l q hq)

theorem mem_firingEntries {cfg : ScoreConfig} {f : FeatureSet}
    {idx : CorpusIndex} {s : ReportSection} {e : MatchEntry} :
    e ∈ firingEntries cfg f idx s ↔
      ∃ p, p ∈ withIdx 0 idx.cards ∧ p.2.sec = s ∧
        (Fires p.2 (featureTokens f)).2 ≠ [] ∧ e = mkEntry cfg f p := by
  unfold firingEntries candidatesWithIdx
  simp only [List.mem_filterMap, List.mem_filter, decide_eq_true_eq]
  constructor
  · rintro ⟨p, ⟨hmem, hsec⟩, hif⟩
    by_cases hE : (Fires p.2 (featureTokens f)).2.isEmpty
    · rw [if_pos hE] at hif
      exact absurd hif (by simp)
    · rw [if_neg hE] at hif
      refine ⟨p, hmem, hsec, ?_, ?_⟩
      · simpa [List.isEmpty_eq_false] using hE
      · exact (Option.some.injEq _ _ ▸ hif).symm
  · rintro ⟨p, hmem, hsec, hne, rfl⟩
    refine ⟨p, ⟨hmem, hsec⟩, ?_⟩
    rw [if_neg (by simpa [List.isEmpty_eq_false] using hne)]

theorem firingEntries_pairwise (cfg : ScoreConfig) (f : FeatureSet)
    (idx : CorpusIndex) (s : ReportSection) :
    List.Pairwise (fun a b => a.loadIdx < b.loadIdx)
      (firingEntries cfg f idx s) := by
  unfold firingEntries
  rw [List.pairwise_filterMap]
  have hp : List.Pairwise (fun p q : Nat × RuleCard => p.1 < q.1)
      (candidatesWithIdx idx s) :=
    List.Pairwise.sublist (List.filter_sublist _) (withIdx_pairwise 0 idx.cards)
  refine hp.imp ?_
  intro p q h b hb b2 hb2
  have hbp : b.loadIdx = p.1 := by
    split at hb
    · simp at hb
    · simp only [Option.mem_def, Option.some.injEq] at hb
      rw [← hb]; rfl
  have hbq : b2.loadIdx = q.1 := by
    split at hb2
    · simp at hb2
    · simp only [Option.mem_def, Option.some.injEq] at hb2
      rw [← hb2]; rfl
  rw [hbp, hbq]
  exact h

theorem sectionSelector_subset {cfg : ScoreConfig} {f : FeatureSet}
    {idx : CorpusIndex} {s : ReportSection} {e : MatchEntry}
    (h : e ∈ SectionSelector cfg f idx s) : e ∈ firingEntries cfg f idx s := by
  have h1 : e ∈ List.insertionSort rankLe (firingEntries cfg f idx s) :=
    List.take_subset _ _ h
  exact (List.perm_insertionSort rankLe _).subset h1

theorem sectionSelector_sorted (cfg : ScoreConfig) (f : FeatureSet)
    (idx : CorpusIndex) (s : ReportSection) :
    List.Pairwise rankLe (SectionSelector cfg f idx s) :=
  List.Pairwise.sublist (List.take_sublist _ _)
    (List.sorted_insertionSort rankLe (firingEntries cfg f idx s))

theorem sectionSelector_pairwise_rankLt (cfg : ScoreConfig) (f : FeatureSet)
    (idx : CorpusIndex) (s : ReportSection) :
    List.Pairwise rankLt (SectionSelector cfg f idx s) := by
  have hle := sectionSelector_sorted cfg f idx s
  have hne : List.Pairwise (fun a b : MatchEntry => a.loadIdx ≠ b.loadIdx)
      (List.insertionSort rankLe (firingEntries cfg f idx s)) := by
    refine ((List.perm_insertionSort rankLe _).pairwise_iff ?_).mpr
      ((firingEntries_pairwise cfg f idx s).imp (fun h => Nat.ne_of_lt h))
    exact fun h => Ne.symm h
  have hne2 : List.Pairwise (fun a b : MatchEntry => a.loadIdx ≠ b.loadIdx)
      (SectionSelector cfg f idx s) :=
    List.Pairwise.sublist (List.take_sublist _ _) hne
  refine (hle.and hne2).imp ?_
  rintro a b ⟨hab, hnab⟩
  rcases hab with h | ⟨heq, hle2⟩
  · exact Or.inl h
  · exact Or.inr ⟨heq, Nat.lt_of_le_of_ne hle2 hnab⟩

theorem sectionSelector_length_le (cfg : ScoreConfig) (f : FeatureSet)
    (idx : CorpusIndex) (s : ReportSection) :
    (SectionSelector cfg f idx s).length ≤ topN s :=
  List.length_take_le _ _

theorem sectionSelector_all_of_few (cfg : ScoreConfig) (f : FeatureSet)
    (idx : CorpusIndex) (s : ReportSection)
    (h : (firingEntries cfg f idx s).length ≤ topN s) :
    (SectionSelector cfg f idx s).Perm (firingEntries cfg f idx s) := by
  unfold SectionSelector
  rw [List.take_of_length_le (by rw [List.length_insertionSort]; exact h)]
  exact List.perm_insertionSort rankLe _

theorem sectionSelector_top_of_many (cfg : ScoreConfig) (f : FeatureSet)
    (idx : CorpusIndex) (s : ReportSection)
    (h : topN s < (firingEntries cfg f idx s).length) :
    (SectionSelector cfg f idx s).length = topN s ∧
    ∃ dropped,
      ((SectionSelector cfg f idx s) ++ dropped).Perm (firingEntries cfg f idx s) ∧
      ∀ x ∈ SectionSelector cfg f idx s, ∀ y ∈ dropped, rankLe x y := by
  constructor
  · unfold SectionSelector
    rw [List.length_take, List.length_insertionSort]
    omega
  · refine ⟨(List.insertionSort rankLe (firingEntries cfg f idx s)).drop (topN s),
      ?_, ?_⟩
    · show ((List.insertionSort rankLe (firingEntries cfg f idx s)).take (topN s) ++
        (List.insertionSort rankLe (firingEntries cfg f idx s)).drop (topN s)).Perm
        (firingEntries cfg f idx s)
      rw [List.take_append_drop]
      exact List.perm_insertionSort rankLe _
    · intro x hx y hy
      have hs2 : List.Pairwise rankLe
          ((List.insertionSort rankLe (firingEntries cfg f idx s)).take (topN s) ++
           (List.insertionSort rankLe (firingEntries cfg f idx s)).drop (topN s)) := by
        rw [List.take_append_drop]
        exact List.sorted_insertionSort rankLe _
      exact (List.pairwise_append.mp hs2).2.2 x hx y hy

theorem firingEntries_eq_nil (cfg : ScoreConfig) (f : FeatureSet)
    (idx : CorpusIndex) (s : ReportSection)
    (h : ∀ c ∈ CardsBySection idx s, (Fires c (featureTokens f)).1 = false) :
    firingEntries cfg f idx s = [] := by
  unfold firingEntries
  rw [List.filterMap_eq_nil_iff]
  intro p hp
  have hmem : p ∈ withIdx 0 idx.cards ∧ p.2.sec = s := by
    simpa [candidatesWithIdx] using hp
  have hcard : p.2 ∈ idx.cards := by
    have h2 : p.2 ∈ (withIdx 0 idx.cards).map Prod.snd :=
      List.mem_map_of_mem Prod.snd hmem.1
    rwa [withIdx_map_snd] at h2
  have hcs : p.2 ∈ CardsBySection idx s :=
    List.mem_filter.mpr ⟨hcard, by simp [hmem.2]⟩
  have hf := h p.2 hcs
  have hEmp : (Fires p.2 (featureTokens f)).2.isEmpty = true := by
    unfold Fires at hf ⊢
    simpa using hf
  rw [if_pos hEmp]

theorem sectionSelector_eq_nil (cfg : ScoreConfig) (f : FeatureSet)
    (idx : CorpusIndex) (s : ReportSection)
    (h : ∀ c ∈ CardsBySection idx s, (Fires c (featureTokens f)).1 = false) :
    SectionSelector cfg f idx s = [] := by
  unfold SectionSelector
  rw [firingEntries_eq_nil cfg f idx s h]
  simp

theorem foldl_sections (cfg : ScoreConfig) (idx : CorpusIndex) (f : FeatureSet)
    (acc : List (ReportSection × List MatchEntry)) (L : List ReportSection) :
    L.foldl
        (fun (st : FeatureSet × List (ReportSection × List MatchEntry)) s =>
          (st.1, st.2 ++ [(s, SectionSelector cfg st.1 idx s)]))
        (f, acc) =
      (f, acc ++ L.map (fun s => (s, SectionSelector cfg f idx s))) := by
  induction L generalizing acc with
  | nil => simp
  | cons a L ih =>
    simp only [List.foldl_cons, List.map_cons]
    rw [ih]
    simp

theorem matchAll_eq (cfg : ScoreConfig) (idx : CorpusIndex) (f : FeatureSet)
    (h : idx.cards ≠ []) :
    MatchAllSt cfg (some idx) f =
      (f, Except.ok
        ⟨sectionOrder.map (fun s => (s, SectionSelector cfg f idx s)),
         buildTrace (sectionOrder.map (fun s => (s, SectionSelector cfg f idx s)))⟩) := by
  have hE : idx.cards.isEmpty = false := by simpa [List.isEmpty_eq_false] using h
  simp only [MatchAllSt, hE, Bool.false_eq_true, if_false]
  rw [foldl_sections cfg idx f [] sectionOrder]
  simp

theorem resultsOf_matchAll (cfg : ScoreConfig) (idx : CorpusIndex)
    (f : FeatureSet) (s : ReportSection) (h : idx.cards ≠ []) :
    resultsOf (MatchAll cfg (some idx) f) s =
      some (SectionSelector cfg f idx s) := by
  unfold MatchAll
  rw [matchAll_eq cfg idx f h]
  cases s <;> rfl

theorem matchAllSt_fst (cfg : ScoreConfig) (o : Option CorpusIndex)
    (f : FeatureSet) : (MatchAllSt cfg o f).1 = f := by
  cases o with
  | none => rfl
  | some idx =>
    by_cases h : idx.cards = []
    · have hE : idx.cards.isEmpty = true := by simp [h]
      simp only [MatchAllSt, hE, if_true]
    · rw [matchAll_eq cfg idx f h]

theorem df_le_size (idx : CorpusIndex) (t : String) :
    DocumentFrequency idx t ≤ idx.size :=
  List.length_filter_le _ _

theorem idf_pos (idx : CorpusIndex) (t : String) :
    0 < InverseDocumentFrequency idx t := by
  unfold InverseDocumentFrequency
  have hc : (DocumentFrequency idx t : ℝ) ≤ (idx.size : ℝ) := by
    exact_mod_cast df_le_size idx t
  have h1 : (1 : ℝ) ≤ ((idx.size : ℝ) + 1) / ((DocumentFrequency idx t : ℝ) + 1) := by
    rw [le_div_iff₀ (by positivity)]
    linarith
  have h2 := Real.log_nonneg h1
  linarith

theorem idf_antitone (idx : CorpusIndex) (t1 t2 : String)
    (h : DocumentFrequency idx t1 < DocumentFrequency idx t2) :
    InverseDocumentFrequency idx t2 ≤ InverseDocumentFrequency idx t1 := by
  unfold InverseDocumentFrequency
  have hc : (DocumentFrequency idx t1 : ℝ) ≤ (DocumentFrequency idx t2 : ℝ) := by
    exact_mod_cast Nat.le_of_lt h
  have hr : ((idx.size : ℝ) + 1) / ((DocumentFrequency idx t2 : ℝ) + 1) ≤
      ((idx.size : ℝ) + 1) / ((DocumentFrequency idx t1 : ℝ) + 1) := by
    gcongr
  have hl := Real.log_le_log (by positivity) hr
  linarith

theorem entry_card {cfg : ScoreConfig} {f : FeatureSet} {idx : CorpusIndex}
    {s : ReportSection} {e : MatchEntry}
    (h : e ∈ SectionSelector cfg f idx s) :
    ∃ i c, idx.cards[i]? = some c ∧ e.loadIdx = i ∧ c.sec = s ∧
      c.id = e.cardId ∧ e = mkEntry cfg f (i, c) := by
  obtain ⟨p, hp, hsec, hne, rfl⟩ := mem_firingEntries.mp (sectionSelector_subset h)
  obtain ⟨i, hg, hi⟩ := (mem_withIdx 0 idx.cards).mp hp
  refine ⟨i, p.2, hg, by simpa [mkEntry] using hi, hsec, rfl, ?_⟩
  obtain ⟨p1, p2⟩ := p
  simp only at hi hg hsec ⊢
  rw [show p1 = i by omega]

theorem sectionSelector_round_trip {cfg : ScoreConfig} {f : FeatureSet}
    {idx : CorpusIndex} {s : ReportSection} {e : MatchEntry}
    (h : e ∈ SectionSelector cfg f idx s) :
    ∃ c, c ∈ idx.cards ∧ c ∈ CardsBySection idx s ∧
      c.id = e.cardId ∧ c.sec = s := by
  obtain ⟨i, c, hg, _, hsec, hid, _⟩ := entry_card h
  have hmem : c ∈ idx.cards := by
    have := List.getElem?_eq_some_iff.mp hg
    obtain ⟨hlt, hc⟩ := this
    exact hc ▸ List.getElem_mem hlt
  exact ⟨c, hmem, List.mem_filter.mpr ⟨hmem, by simp [hsec]⟩, hid, hsec⟩

theorem sectionSelector_disjoint_ids {cfg : ScoreConfig} {f : FeatureSet}
    {idx : CorpusIndex}
    (hnd : (idx.cards.map (fun c => c.id)).Nodup)
    {s1 s2 : ReportSection} {e1 e2 : MatchEntry} (hs : s1 ≠ s2)
    (h1 : e1 ∈ SectionSelector cfg f idx s1)
    (h2 : e2 ∈ SectionSelector cfg f idx s2) :
    e1.cardId ≠ e2.cardId := by
  obtain ⟨i1, c1, hg1, _, hsec1, hid1, _⟩ := entry_card h1
  obtain ⟨i2, c2, hg2, _, hsec2, hid2, _⟩ := entry_card h2
  intro heq
  have hcne : c1 ≠ c2 := by
    intro hcc
    exact hs (by rw [← hsec1, hcc, hsec2])
  have hine : i1 ≠ i2 := by
    intro hii
    rw [hii, hg2] at hg1
    injection hg1 with hh
    exact hcne hh.symm
  have hb1 : i1 < idx.cards.length := (List.getElem?_eq_some_iff.mp hg1).1
  have hm1 : (idx.cards.map (fun c => c.id))[i1]? = some c1.id := by
    rw [List.getElem?_map, hg1]
    rfl
  have hm2 : (idx.cards.map (fun c => c.id))[i2]? = some c2.id := by
    rw [List.getElem?_map, hg2]
    rfl
  have hb1m : i1 < (idx.cards.map (fun c => c.id)).length := by
    rw [List.length_map]
    exact hb1
  have : i1 = i2 := by
    refine List.getElem?_inj hb1m hnd ?_
    rw [hm1, hm2, hid1, hid2, heq]
  exact hine this

theorem entry_detail {cfg : ScoreConfig} {f : FeatureSet} {idx : CorpusIndex}
    {s : ReportSection} {e : MatchEntry}
    (h : e ∈ SectionSelector cfg f idx s) :
    e.finalScore = e.detail.finalScore ∧
    e.detail.finalScore =
      cfg.baseWeight * e.detail.baseScore + cfg.tagWeight * e.detail.tagMatchScore +
        cfg.yearWeight * e.detail.yearBoost + cfg.goalWeight * e.detail.goalBoost ∧
    e.detail.tagMatchScore = (e.firedTokens.map cfg.idf).sum ∧
    (e.detail.yearBoost = cfg.yearBonus ∨ e.detail.yearBoost = 0) ∧
    (e.detail.goalBoost = cfg.goalBonus ∨ e.detail.goalBoost = 0) ∧
    ∃ c, c ∈ idx.cards ∧ c.id = e.cardId ∧ c.sec = s ∧
      e.detail.baseScore = c.priority := by
  obtain ⟨i, c, hg, hidx, hsec, hid, he⟩ := entry_card h
  subst he
  have hmem : c ∈ idx.cards := by
    obtain ⟨hlt, hc⟩ := List.getElem?_eq_some_iff.mp hg
    exact hc ▸ List.getElem_mem hlt
  refine ⟨rfl, rfl, rfl, ?_, ?_, c, hmem, rfl, hsec, rfl⟩
  · by_cases hc2 : (toString f.targetYear ∈ c.tags ∨ toString f.targetYear ∈ c.trigger)
        ∨ (f.isFavorableYear = true ∧ "timing" ∈ c.tags)
    · exact Or.inl (by simp [mkEntry, Score, hc2])
    · exact Or.inr (by simp [mkEntry, Score, hc2])
  · by_cases hc3 : (f.goalTokens.any (fun g => decide (g ∈ c.tags))) = true
    · exact Or.inl (by simp [mkEntry, Score, hc3])
    · exact Or.inr (by simp [mkEntry, Score, hc3])

theorem fires_fst (card : RuleCard) (tokens : List String) :
    (Fires card tokens).1 = true ↔ ∃ t, t ∈ card.trigger ∧ t ∈ tokens := by
  constructor
  · intro h
    have hne : card.trigger.filter (fun t => decide (t ∈ tokens)) ≠ [] := by
      simpa [Fires] using h
    obtain ⟨t, ht⟩ := List.exists_mem_of_ne_nil _ hne
    have := List.mem_filter.mp ht
    exact ⟨t, this.1, by simpa using this.2⟩
  · rintro ⟨t, h1, h2⟩
    have hmem : t ∈ card.trigger.filter (fun t => decide (t ∈ tokens)) :=
      List.mem_filter.mpr ⟨h1, by simpa using h2⟩
    show (!(card.trigger.filter (fun t => decide (t ∈ tokens))).isEmpty) = true
    simp only [Bool.not_eq_true', List.isEmpty_eq_false]
    exact List.ne_nil_of_mem hmem

theorem fires_snd (card : RuleCard) (tokens : List String) (t : String) :
    t ∈ (Fires card tokens).2 ↔ t ∈ card.trigger ∧ t ∈ tokens := by
  unfold Fires
  simp [List.mem_filter]

theorem sectionSelector_fired_ne_nil {cfg : ScoreConfig} {f : FeatureSet}
    {idx : CorpusIndex} {s : ReportSection} {e : MatchEntry}
    (h : e ∈ SectionSelector cfg f idx s) : e.firedTokens ≠ [] := by
  obtain ⟨p, hp, hsec, hne, rfl⟩ := mem_firingEntries.mp (sectionSelector_subset h)
  simpa [mkEntry] using hne

/-- Modelled from the spec: TriggerMatcher with the read-only request state
(the FeatureSet) threaded explicitly. -/
def FiresSt (card : RuleCard) (f : FeatureSet) :
    FeatureSet × (Bool × List String) :=
  (f, Fires card (featureTokens f))

/-- Modelled from the spec: Scorer with the read-only request state threaded
explicitly. -/
def ScoreSt (cfg : ScoreConfig) (card : RuleCard) (fired : List String)
    (f : FeatureSet) : FeatureSet × ScoreDetail :=
  (f, Score cfg f card fired)

/-- Modelled from the spec: SectionSelector with the read-only request state
threaded explicitly. -/
def SectionSelectorSt (cfg : ScoreConfig) (idx : CorpusIndex)
    (s : ReportSection) (f : FeatureSet) : FeatureSet × List MatchEntry :=
  (f, SectionSelector cfg f idx s)

/-- Test fixture: a simple IDF table. -/
def idf0 : String → ℚ := fun t => if t = "a" then 2 else 1

/-- Test fixture: the default configuration over `idf0`. -/
def cfg0 : ScoreConfig := defaultConfig idf0

/-- Test fixture: a feature set whose token set is a, b, t, s, g. -/
def f0 : FeatureSet := ⟨"a", ["b"], [], "t", "s", 2026, true, ["g"]⟩

/-- Test fixture corpus cards. -/
def cardE1 : RuleCard := ⟨"E1", ReportSection.ELEM, ["a"], ["a"], 5⟩

def cardE2 : RuleCard := ⟨"E2", ReportSection.ELEM, ["a", "b"], ["b"], 3⟩

def cardE3 : RuleCard := ⟨"E3", ReportSection.ELEM, ["z"], ["z"], 9⟩

def cardS1 : RuleCard := ⟨"S1", ReportSection.SURV, ["a"], ["a"], 6⟩

def cardS2 : RuleCard := ⟨"S2", ReportSection.SURV, ["a"], ["a"], 5⟩

def cardS3 : RuleCard := ⟨"S3", ReportSection.SURV, ["a"], ["a"], 4⟩

def cardS4 : RuleCard := ⟨"S4", ReportSection.SURV, ["a"], ["a"], 3⟩

def cardS5 : RuleCard := ⟨"S5", ReportSection.SURV, ["a"], ["a"], 2⟩

def cardS6 : RuleCard := ⟨"S6", ReportSection.SURV, ["a"], ["a"], 1⟩

def cardT1 : RuleCard := ⟨"T1", ReportSection.TEN, ["y"], ["zz"], 4⟩

def cardA1 : RuleCard := ⟨"A1", ReportSection.APPL, ["a"], ["a"], 7⟩

def cardR1 : RuleCard := ⟨"R1", ReportSection.STRU, ["b"], ["b"], 2⟩

/-- Test fixture: a twelve-card corpus with two firing ELEM cards, six
firing SURV cards (one more than the SURV quota), one non-firing TEN card,
and a single firing card each in APPL and STRU. -/
def idx0 : CorpusIndex :=
  ⟨[cardE1, cardE2, cardE3, cardS1, cardS2, cardS3, cardS4, cardS5,
    cardS6, cardT1, cardA1, cardR1]⟩

/-- C1: for every section the MatchResult has length at most the configured
top-N (8 for ELEM/TEN/STRU, 5 for SURV/APPL); if at most top-N candidates
fire, all firing candidates are returned; if more fire, exactly top-N are
returned and every returned entry ranks at least as high as every dropped
firing candidate under the score/load-order tie-break. -/
theorem claim_topn_truncation (cfg : ScoreConfig) (f : FeatureSet)
    (idx : CorpusIndex) (s : ReportSection) :
    (topN ReportSection.ELEM = 8 ∧ topN ReportSection.TEN = 8 ∧
      topN ReportSection.STRU = 8 ∧ topN ReportSection.SURV = 5 ∧
      topN ReportSection.APPL = 5) ∧
    (SectionSelector cfg f idx s).length ≤ topN s ∧
    List.Pairwise rankLe (SectionSelector cfg f idx s) ∧
    ((firingEntries cfg f idx s).length ≤ topN s →
      (SectionSelector cfg f idx s).Perm (firingEntries cfg f idx s)) ∧
    (topN s < (firingEntries cfg f idx s).length →
      (SectionSelector cfg f idx s).length = topN s ∧
      ∃ dropped,
        ((SectionSelector cfg f idx s) ++ dropped).Perm
          (firingEntries cfg f idx s) ∧
        ∀ x ∈ SectionSelector cfg f idx s, ∀ y ∈ dropped, rankLe x y) :=
  ⟨⟨rfl, rfl, rfl, rfl, rfl⟩, sectionSelector_length_le cfg f idx s,
   sectionSelector_sorted cfg f idx s,
   sectionSelector_all_of_few cfg f idx s,
   sectionSelector_top_of_many cfg f idx s⟩

/-- Witness for C1 on the concrete corpus: the two firing ELEM candidates
are all returned, and the SURV result is truncated to its quota of 5 out of
6 firing candidates. -/
theorem claim_topn_truncation_witness :
    (SectionSelector cfg0 f0 idx0 ReportSection.ELEM).Perm
      (firingEntries cfg0 f0 idx0 ReportSection.ELEM) ∧
    (SectionSelector cfg0 f0 idx0 ReportSection.SURV).length =
      topN ReportSection.SURV :=
  ⟨(claim_topn_truncation cfg0 f0 idx0 ReportSection.ELEM).2.2.2.1 (by decide),
   ((claim_topn_truncation cfg0 f0 idx0 ReportSection.SURV).2.2.2.2 (by decide)).1⟩

/-- C2: `Fires` is true iff the trigger intersects the token set; the fired
tokens are exactly that intersection, in trigger order (a sublist of the
trigger); and every entry the Scorer produced for a MatchResult has a
non-empty fired-token list, so a non-firing card never reaches the Scorer. -/
theorem claim_trigger_intersection (card : RuleCard) (tokens : List String) :
    ((Fires card tokens).1 = true ↔ ∃ t, t ∈ card.trigger ∧ t ∈ tokens) ∧
    (∀ t, t ∈ (Fires card tokens).2 ↔ t ∈ card.trigger ∧ t ∈ tokens) ∧
    (Fires card tokens).2.Sublist card.trigger ∧
    ∀ (cfg : ScoreConfig) (f : FeatureSet) (idx : CorpusIndex)
      (s : ReportSection) (e : MatchEntry),
      e ∈ SectionSelector cfg f idx s → e.firedTokens ≠ [] :=
  ⟨fires_fst card tokens, fires_snd card tokens,
   List.filter_sublist _,
   fun _ _ _ _ _ h => sectionSelector_fired_ne_nil h⟩

/-- Witness for C2: the kept APPL entry of the concrete corpus has a
non-empty fired-token list. -/
theorem claim_trigger_intersection_witness :
    (mkEntry cfg0 f0 (10, cardA1)).firedTokens ≠ [] :=
  (claim_trigger_intersection cardA1 []).2.2.2 cfg0 f0 idx0
    ReportSection.APPL (mkEntry cfg0 f0 (10, cardA1))
    (by rw [show SectionSelector cfg0 f0 idx0 ReportSection.APPL =
        [mkEntry cfg0 f0 (10, cardA1)] from rfl]
        exact List.mem_cons_self _ _)

/-- C3: under the default weights every MatchResult entry carries a
breakdown with final = 1.0 priority + 2.0 tag-match + 0.5 year-boost +
0.3 goal-boost, tag-match equal to the IDF sum over the fired tokens, base
equal to the card priority, and (given a non-negative IDF table and
non-negative priorities) all four terms and the final sum non-negative. -/
theorem claim_score_formula (idf : String → ℚ) (f : FeatureSet)
    (idx : CorpusIndex) (s : ReportSection) (e : MatchEntry)
    (hidf : ∀ t, 0 ≤ idf t)
    (hpr : ∀ c ∈ idx.cards, 0 ≤ c.priority)
    (h : e ∈ SectionSelector (defaultConfig idf) f idx s) :
    e.finalScore = e.detail.finalScore ∧
    e.detail.finalScore = 1 * e.detail.baseScore + 2 * e.detail.tagMatchScore +
      (1 / 2) * e.detail.yearBoost + (3 / 10) * e.detail.goalBoost ∧
    e.detail.tagMatchScore = (e.firedTokens.map idf).sum ∧
    (∃ c, c ∈ idx.cards ∧ c.id = e.cardId ∧ e.detail.baseScore = c.priority) ∧
    0 ≤ e.detail.baseScore ∧ 0 ≤ e.detail.tagMatchScore ∧
    0 ≤ e.detail.yearBoost ∧ 0 ≤ e.detail.goalBoost ∧
    0 ≤ e.detail.finalScore := by
  obtain ⟨hfs, hcomb, htag, hyb, hgb, c, hmem, hid, hsec, hbase⟩ := entry_detail h
  have hb : 0 ≤ e.detail.baseScore := hbase ▸ hpr c hmem
  have ht : 0 ≤ e.detail.tagMatchScore := by
    rw [htag]
    refine List.sum_nonneg ?_
    intro x hx
    obtain ⟨t, _, rfl⟩ := List.mem_map.mp hx
    exact hidf t
  have hy : 0 ≤ e.detail.yearBoost := by
    rcases hyb with h2 | h2 <;> norm_num [h2, defaultConfig]
  have hg : 0 ≤ e.detail.goalBoost := by
    rcases hgb with h2 | h2 <;> norm_num [h2, defaultConfig]
  have hcomb2 : e.detail.finalScore = 1 * e.detail.baseScore +
      2 * e.detail.tagMatchScore + (1 / 2) * e.detail.yearBoost +
      (3 / 10) * e.detail.goalBoost := by
    simpa [defaultConfig] using hcomb
  refine ⟨hfs, hcomb2, by simpa [defaultConfig] using htag,
    ⟨c, hmem, hid, hbase⟩, hb, ht, hy, hg, ?_⟩
  rw [hcomb2]
  linarith

/-- Witness for C3 on the concrete corpus: the kept APPL entry keeps the
formula and a non-negative final score. -/
theorem claim_score_formula_witness :
    (mkEntry cfg0 f0 (10, cardA1)).finalScore =
      (mkEntry cfg0 f0 (10, cardA1)).detail.finalScore ∧
    0 ≤ (mkEntry cfg0 f0 (10, cardA1)).detail.finalScore :=
  have h := claim_score_formula idf0 f0 idx0 ReportSection.APPL
    (mkEntry cfg0 f0 (10, cardA1))
    (fun t => by unfold idf0; split <;> norm_num)
    (by intro c hc
        simp only [idx0, cardE1, cardE2, cardE3, cardS1, cardS2, cardS3,
          cardS4, cardS5, cardS6, cardT1, cardA1, cardR1,
          List.mem_cons, List.not_mem_nil, or_false] at hc
        rcases hc with rfl | rfl | rfl | rfl | rfl | rfl | rfl | rfl | rfl |
          rfl | rfl | rfl <;> norm_num)
    (by rw [show SectionSelector (defaultConfig idf0) f0 idx0 ReportSection.APPL =
        [mkEntry cfg0 f0 (10, cardA1)] from rfl]
        exact List.mem_cons_self _ _)
  ⟨h.1, h.2.2.2.2.2.2.2.2⟩

/-- C4: MatchAll is deterministic, and every section result in an ok
outcome is strictly ordered by descending final score with ties broken by
strictly ascending corpus load order — two tied entries are ordered by load
index, never by card content. -/
theorem claim_determinism_tiebreak (cfg : ScoreConfig)
    (o : Option CorpusIndex) (f : FeatureSet) :
    MatchAll cfg o f = MatchAll cfg o f ∧
    ∀ (idx : CorpusIndex) (s : ReportSection) (l : List MatchEntry),
      resultsOf (MatchAll cfg (some idx) f) s = some l →
      List.Pairwise rankLt l := by
  refine ⟨rfl, ?_⟩
  intro idx s l hl
  by_cases h : idx.cards = []
  · exfalso
    have hE : idx.cards.isEmpty = true := by simp [h]
    simp [MatchAll, MatchAllSt, hE, resultsOf] at hl
  · rw [resultsOf_matchAll cfg idx f s h] at hl
    injection hl with hl2
    exact hl2 ▸ sectionSelector_pairwise_rankLt cfg f idx s

/-- Witness for C4 on the concrete corpus: the SURV result is strictly
ranked. -/
theorem claim_determinism_tiebreak_witness :
    List.Pairwise rankLt (SectionSelector cfg0 f0 idx0 ReportSection.SURV) :=
  (claim_determinism_tiebreak cfg0 (some idx0) f0).2 idx0 ReportSection.SURV
    (SectionSelector cfg0 f0 idx0 ReportSection.SURV)
    (resultsOf_matchAll cfg0 idx0 f0 ReportSection.SURV (by decide))

/-- C5: IDF equals log((N+1)/(df+1)) + 1, is strictly positive for every
token (of any document frequency, 0 to N), and is non-increasing in
document frequency. -/
theorem claim_idf_formula (idx : CorpusIndex) (t : String) :
    InverseDocumentFrequency idx t =
      Real.log (((idx.size : ℝ) + 1) /
        ((DocumentFrequency idx t : ℝ) + 1)) + 1 ∧
    0 < InverseDocumentFrequency idx t ∧
    ∀ t2, DocumentFrequency idx t < DocumentFrequency idx t2 →
      InverseDocumentFrequency idx t2 ≤ InverseDocumentFrequency idx t :=
  ⟨rfl, idf_pos idx t, fun t2 h => idf_antitone idx t t2 h⟩

/-- Witness for C5 on the concrete corpus: the rare tag z (df 1) is
positive and outweighs the common tag a (df 8). -/
theorem claim_idf_formula_witness :
    0 < InverseDocumentFrequency idx0 "z" ∧
    InverseDocumentFrequency idx0 "a" ≤ InverseDocumentFrequency idx0 "z" :=
  ⟨(claim_idf_formula idx0 "z").2.1,
   (claim_idf_formula idx0 "z").2.2 "a" (by decide)⟩

/-- C6: a zero-match section yields an empty MatchResult inside an ok
outcome; MatchAll errors exactly when the index was never built or the
corpus is empty. -/
theorem claim_zero_match_not_error (cfg : ScoreConfig) (f : FeatureSet) :
    isOkB (MatchAll cfg none f) = false ∧
    (∀ idx : CorpusIndex, idx.cards = [] →
      isOkB (MatchAll cfg (some idx) f) = false) ∧
    (∀ idx : CorpusIndex, idx.cards ≠ [] →
      isOkB (MatchAll cfg (some idx) f) = true) ∧
    (∀ (idx : CorpusIndex) (s : ReportSection), idx.cards ≠ [] →
      (∀ c ∈ CardsBySection idx s, (Fires c (featureTokens f)).1 = false) →
      resultsOf (MatchAll cfg (some idx) f) s = some []) := by
  refine ⟨rfl, ?_, ?_, ?_⟩
  · intro idx h
    have hE : idx.cards.isEmpty = true := by simp [h]
    simp [MatchAll, MatchAllSt, hE, isOkB]
  · intro idx h
    unfold MatchAll
    rw [matchAll_eq cfg idx f h]
    rfl
  · intro idx s h hz
    rw [resultsOf_matchAll cfg idx f s h, sectionSelector_eq_nil cfg f idx s hz]

/-- Witness for C6 on the concrete corpus: the run succeeds and the TEN
section, where nothing fires, returns an empty result. -/
theorem claim_zero_match_not_error_witness :
    isOkB (MatchAll cfg0 (some idx0) f0) = true ∧
    resultsOf (MatchAll cfg0 (some idx0) f0) ReportSection.TEN = some [] :=
  ⟨(claim_zero_match_not_error cfg0 f0).2.2.1 idx0 (by decide),
   (claim_zero_match_not_error cfg0 f0).2.2.2 idx0 ReportSection.TEN
     (by decide) (by decide)⟩

/-- C7: every MatchResult entry of a section corresponds to a corpus card
of that section (the candidate pool is CardsBySection), and with unique
corpus ids no card id can appear in the results of two different
sections. -/
theorem claim_round_trip_ids (cfg : ScoreConfig) (f : FeatureSet)
    (idx : CorpusIndex) (s : ReportSection) (e : MatchEntry) :
    (e ∈ SectionSelector cfg f idx s →
      ∃ c, c ∈ idx.cards ∧ c ∈ CardsBySection idx s ∧
        c.id = e.cardId ∧ c.sec = s) ∧
    ((idx.cards.map (fun c => c.id)).Nodup →
      ∀ (s2 : ReportSection) (e2 : MatchEntry), s ≠ s2 →
      e ∈ SectionSelector cfg f idx s → e2 ∈ SectionSelector cfg f idx s2 →
      e.cardId ≠ e2.cardId) :=
  ⟨fun h => sectionSelector_round_trip h,
   fun hnd _ _ hs h1 h2 => sectionSelector_disjoint_ids hnd hs h1 h2⟩

/-- Witness for C7 on the concrete corpus: the kept APPL entry round-trips
to its card, and its id differs from the id of the kept STRU entry. -/
theorem claim_round_trip_ids_witness :
    (∃ c, c ∈ idx0.cards ∧ c ∈ CardsBySection idx0 ReportSection.APPL ∧
      c.id = (mkEntry cfg0 f0 (10, cardA1)).cardId ∧
      c.sec = ReportSection.APPL) ∧
    (mkEntry cfg0 f0 (10, cardA1)).cardId ≠
      (mkEntry cfg0 f0 (11, cardR1)).cardId :=
  have hA : mkEntry cfg0 f0 (10, cardA1) ∈
      SectionSelector cfg0 f0 idx0 ReportSection.APPL := by
    rw [show SectionSelector cfg0 f0 idx0 ReportSection.APPL =
      [mkEntry cfg0 f0 (10, cardA1)] from rfl]
    exact List.mem_cons_self _ _
  have hR : mkEntry cfg0 f0 (11, cardR1) ∈
      SectionSelector cfg0 f0 idx0 ReportSection.STRU := by
    rw [show SectionSelector cfg0 f0 idx0 ReportSection.STRU =
      [mkEntry cfg0 f0 (11, cardR1)] from rfl]
    exact List.mem_cons_self _ _
  ⟨(claim_round_trip_ids cfg0 f0 idx0 ReportSection.APPL
      (mkEntry cfg0 f0 (10, cardA1))).1 hA,
   (claim_round_trip_ids cfg0 f0 idx0 ReportSection.APPL
      (mkEntry cfg0 f0 (10, cardA1))).2 (by decide) ReportSection.STRU
      (mkEntry cfg0 f0 (11, cardR1)) (by decide) hA hR⟩

/-- C8: the FeatureSet is read-only for the whole core: threading it as the
explicit request state through TriggerMatcher, Scorer, SectionSelector and
MatchAll returns it unchanged. -/
theorem claim_featureset_immutable (cfg : ScoreConfig)
    (o : Option CorpusIndex) (card : RuleCard) (fired : List String)
    (idx : CorpusIndex) (s : ReportSection) (f : FeatureSet) :
    (FiresSt card f).1 = f ∧ (ScoreSt cfg card fired f).1 = f ∧
    (SectionSelectorSt cfg idx s f).1 = f ∧ (MatchAllSt cfg o f).1 = f :=
  ⟨rfl, rfl, rfl, matchAllSt_fst cfg o f⟩

end SajuEngine

/-- C9: getHourFromJiIndex maps the twelve ji indices to their fixed
representative hours 0, 1, 3, 5, 7, 9, 11, 13, 15, 17, 19, 21 and returns
the default 12 for every other integer; defined by total lookup, it never
throws. -/
theorem claim_hour_from_ji_index :
    (SajuFrontend.getHourFromJiIndex 0 = 0 ∧
     SajuFrontend.getHourFromJiIndex 1 = 1 ∧
     SajuFrontend.getHourFromJiIndex 2 = 3 ∧
     SajuFrontend.getHourFromJiIndex 3 = 5 ∧
     SajuFrontend.getHourFromJiIndex 4 = 7 ∧
     SajuFrontend.getHourFromJiIndex 5 = 9 ∧
     SajuFrontend.getHourFromJiIndex 6 = 11 ∧
     SajuFrontend.getHourFromJiIndex 7 = 13 ∧
     SajuFrontend.getHourFromJiIndex 8 = 15 ∧
     SajuFrontend.getHourFromJiIndex 9 = 17 ∧
     SajuFrontend.getHourFromJiIndex 10 = 19 ∧
     SajuFrontend.getHourFromJiIndex 11 = 21) ∧
    ∀ j : Int, j < 0 ∨ 11 < j → SajuFrontend.getHourFromJiIndex j = 12 := by
  constructor
  · exact ⟨rfl, rfl, rfl, rfl, rfl, rfl, rfl, rfl, rfl, rfl, rfl, rfl⟩
  · intro j hj
    unfold SajuFrontend.getHourFromJiIndex
    have hn : SajuFrontend.hourMap.find? (fun p => p.1 == j) = none := by
      refine List.find?_eq_none.mpr ?_
      intro p hp
      simp only [SajuFrontend.hourMap, List.mem_cons, List.not_mem_nil,
        or_false] at hp
      rcases hj with hj | hj <;>
        rcases hp with rfl | rfl | rfl | rfl | rfl | rfl | rfl | rfl | rfl |
          rfl | rfl | rfl <;> simp <;> omega
    rw [hn]

/-- Witness for C9: an out-of-range index falls back to 12. -/
theorem claim_hour_from_ji_index_witness :
    SajuFrontend.getHourFromJiIndex (-3) = 12 :=
  claim_hour_from_ji_index.2 (-3) (by decide)

/-- C10: getAccuracyBadge returns no_time on a missing quality object,
boundary whenever solar_term_boundary is set (taking precedence over
has_birth_time), no_time when neither boundary nor birth time, and high
exactly when not at a boundary and the birth time is present. -/
theorem claim_accuracy_badge :
    SajuFrontend.getAccuracyBadge none = SajuFrontend.AccuracyBadge.no_time ∧
    ∀ q : SajuFrontend.QualityInfo,
      (q.solar_term_boundary = true →
        SajuFrontend.getAccuracyBadge (some q) =
          SajuFrontend.AccuracyBadge.boundary) ∧
      (q.solar_term_boundary = false → q.has_birth_time = false →
        SajuFrontend.getAccuracyBadge (some q) =
          SajuFrontend.AccuracyBadge.no_time) ∧
      (q.solar_term_boundary = false → q.has_birth_time = true →
        SajuFrontend.getAccuracyBadge (some q) =
          SajuFrontend.AccuracyBadge.high) := by
  refine ⟨rfl, fun q => ⟨?_, ?_, ?_⟩⟩
  · intro h1
    simp [SajuFrontend.getAccuracyBadge, h1]
  · intro h1 h2
    simp [SajuFrontend.getAccuracyBadge, h1, h2]
  · intro h1 h2
    simp [SajuFrontend.getAccuracyBadge, h1, h2]

/-- Witness for C10: boundary wins even with a birth time present; with
neither flag the badge is no_time; with only a birth time it is high. -/
theorem claim_accuracy_badge_witness :
    SajuFrontend.getAccuracyBadge
      (some ⟨true, true, none, "Asia/Seoul", "kasi"⟩) =
      SajuFrontend.AccuracyBadge.boundary ∧
    SajuFrontend.getAccuracyBadge
      (some ⟨false, false, none, "Asia/Seoul", "kasi"⟩) =
      SajuFrontend.AccuracyBadge.no_time ∧
    SajuFrontend.getAccuracyBadge
      (some ⟨true, false, none, "Asia/Seoul", "kasi"⟩) =
      SajuFrontend.AccuracyBadge.high :=
  ⟨(claim_accuracy_badge.2 ⟨true, true, none, "Asia/Seoul", "kasi"⟩).1 rfl,
   (claim_accuracy_badge.2 ⟨false, false, none, "Asia/Seoul", "kasi"⟩).2.1 rfl rfl,
   (claim_accuracy_badge.2 ⟨true, false, none, "Asia/Seoul", "kasi"⟩).2.2 rfl rfl⟩
